import Mathlib

/-!
# Verification of the booking front-end's availability / slot-status engine

Shallow embedding of the relevant functions of the `bookingfrontend`
repository:

* `getSlotStatus`         — src/components/time-slot-grid.tsx
* `isBookableDate`        — src/components/date-navigator.tsx and the
                            dashboard page (identical copies)
* the availability reduction of `useAvailability` — src/lib/hooks.ts
* `handleResponse`, `refreshAccessToken`, `authFetch`, `clearTokens`,
  `setTokens`             — src/lib/api.ts
* the cache-invalidation fan-out `invalidateBookings` /
  `invalidateResources`   — src/lib/hooks.ts, as called from
                            `BookingDialog.handleConfirm`
* the `prevBookingsCountRef` effect of the dashboard page

Time instants are modelled as `Int` milliseconds since the epoch, exactly
as JavaScript `Date.getTime()`.  Local calendar time is modelled as a
fixed-offset clock aligned with the epoch (no daylight-saving jumps), so
local midnight of the day containing instant `t` is `t.fdiv dayMs * dayMs`.
-/

namespace Booking

/-- Milliseconds in one hour (`1000 * 60 * 60`). -/
def hourMs : Int := 3600000

/-- Milliseconds in one day (`1000 * 60 * 60 * 24`). -/
def dayMs : Int := 86400000

-- ============================================
-- Slot status resolver (src/components/time-slot-grid.tsx)
-- ============================================

/-- The five slot display statuses of `time-slot-grid.tsx`. -/
inductive SlotStatus where
  | available
  | yours
  | unavailable
  | past
  | disabled
deriving DecidableEq, Repr

/-- The `SlotInfo` record returned by `getSlotStatus`. -/
structure SlotInfo where
  status : SlotStatus
  bookingId : Option String := none
deriving DecidableEq, Repr

/-- A `Booking` as received by the grid: the `startUtc` / `endUtc` ISO
strings are modelled by the instants they denote (`new Date(s).getTime()`). -/
structure Bkg where
  id : String
  resourceId : String
  status : String
  startUtc : Int
  endUtc : Int
deriving DecidableEq, Repr

/-- Model of `Date.UTC(y, m, d, hour)` for the selected calendar date, where the
date is identified by its UTC day number `dateDay`. -/
def slotInstant (dateDay : Int) (hour : Int) : Int :=
  (dateDay * 24 + hour) * hourMs

/-- The predicate of the `for` loop of `getSlotStatus`: the booking is for
this resource, is `Active`, and its half-open interval overlaps the
half-open slot interval (`slotStart < bEnd && slotEnd > bStart`). -/
def bookingMatches (resourceId : String) (slotStart slotEnd : Int) (b : Bkg) : Bool :=
  b.resourceId == resourceId && b.status == "Active"
    && decide (slotStart < b.endUtc) && decide (slotEnd > b.startUtc)

/-- Model of `getSlotStatus` of `time-slot-grid.tsx`.  `availableSet` is the set of
keys `"${resourceId}_${hour}"` built from the availability map; `now` is the
wall-clock instant read at the top of the function. -/
def getSlotStatus (resourceId : String) (hour : Int) (dateDay : Int)
    (userBookings : List Bkg) (availableSet : List String)
    (isBookable : Bool) (now : Int) : SlotInfo :=
  let slotStart := slotInstant dateDay hour
  let slotEnd := slotInstant dateDay (hour + 1)
  if slotEnd ≤ now then
    { status := .past }
  else if !isBookable then
    { status := .disabled }
  else
    match userBookings.find? (bookingMatches resourceId slotStart slotEnd) with
    | some b => { status := .yours, bookingId := some b.id }
    | none =>
      if availableSet.contains (resourceId ++ "_" ++ toString hour) then
        { status := .available }
      else
        { status := .unavailable }

-- ============================================
-- Booking-horizon policy (src/components/date-navigator.tsx,
-- duplicated on the dashboard page)
-- ============================================

/-- The local calendar day number containing instant `t` (fixed-offset
local clock): `new Date(t)` has year/month/day denoting day `localDay t`. -/
def localDay (t : Int) : Int := t.fdiv dayMs

/-- Model of `isBookableDate` of `date-navigator.tsx` / the dashboard page.
`nowMs` is the instant `new Date()`; `targetMs` the instant held by the
argument `date`.  `today` and `target` are the local midnights of the two
instants; `diff` is their distance in (whole) days; the date is bookable
when `diff >= 0 && diff <= 3`. -/
def isBookableDate (nowMs targetMs : Int) : Bool :=
  let today := localDay nowMs * dayMs
  let target := localDay targetMs * dayMs
  let diff := (target - today).fdiv dayMs
  decide (0 ≤ diff ∧ diff ≤ 3)

/-- Claim C1: For every resource id, hour, calendar date, user-booking list,
availability set and bookability flag, if the slot's end instant
(`date + hour+1`, UTC) is at or before the current wall-clock time, then
`getSlotStatus` returns status `past`, regardless of the availability set,
of any overlapping active booking of the current user, and of whether the
date is bookable. -/
theorem C1_past_wins (resourceId : String) (hour dateDay : Int)
    (userBookings : List Bkg) (availableSet : List String)
    (isBookable : Bool) (now : Int)
    (hend : slotInstant dateDay (hour + 1) ≤ now) :
    (getSlotStatus resourceId hour dateDay userBookings availableSet
      isBookable now).status = .past := by
  unfold getSlotStatus
  simp only [if_pos hend]

/-- Witness for `C1_past_wins`: a slot ending at 11:00 UTC of epoch day 0
is `past` at instant 11:00, even though it is marked available, the date is
bookable, and the current user has an active overlapping booking. -/
theorem C1_past_wins_witness :
    slotInstant 0 (10 + 1) ≤ slotInstant 0 11 ∧
    (getSlotStatus "r1" 10 0 [⟨"b1", "r1", "Active", slotInstant 0 10, slotInstant 0 11⟩]
      ["r1_10"] true (slotInstant 0 11)).status = .past :=
  ⟨by decide,
   C1_past_wins "r1" 10 0 [⟨"b1", "r1", "Active", slotInstant 0 10, slotInstant 0 11⟩]
     ["r1_10"] true (slotInstant 0 11) (by decide)⟩

/-- Claim C2: For every slot that is neither past nor on a non-bookable date:
if some booking of the current user with status `Active`, for that
resource, overlaps the half-open slot interval under the test
`bookingStart < slotEnd && bookingEnd > slotStart`, then `getSlotStatus`
returns `yours` (so never `available`), even when the (resourceId, hour)
key is present in the availability set; in particular a booking
`[10:00, 11:00)` overlaps the slot `[10:00, 11:00)` (→ `yours`) but does
not overlap the slot `[11:00, 12:00)` (→ not `yours`). -/
theorem C2_yours_precedence (resourceId : String) (hour dateDay : Int)
    (userBookings : List Bkg) (availableSet : List String) (now : Int)
    (b : Bkg)
    (hpast : ¬ slotInstant dateDay (hour + 1) ≤ now)
    (hmem : b ∈ userBookings)
    (hrid : b.resourceId = resourceId)
    (hact : b.status = "Active")
    (hov₁ : b.startUtc < slotInstant dateDay (hour + 1))
    (hov₂ : b.endUtc > slotInstant dateDay hour) :
    (getSlotStatus resourceId hour dateDay userBookings availableSet
        true now).status = .yours ∧
    (getSlotStatus "r1" 10 0 [⟨"b1", "r1", "Active", slotInstant 0 10, slotInstant 0 11⟩]
        ["r1_10", "r1_11"] true 0).status = .yours ∧
    (getSlotStatus "r1" 11 0 [⟨"b1", "r1", "Active", slotInstant 0 10, slotInstant 0 11⟩]
        ["r1_10", "r1_11"] true 0).status ≠ .yours := by
  refine ⟨?_, by decide, by decide⟩
  have hfind : (userBookings.find? (bookingMatches resourceId
      (slotInstant dateDay hour) (slotInstant dateDay (hour + 1)))).isSome := by
    refine List.find?_isSome.mpr ⟨b, hmem, ?_⟩
    simp [bookingMatches, hrid, hact, hov₂.lt, hov₁]
  unfold getSlotStatus
  simp only [if_neg hpast, Bool.not_true, Bool.false_eq_true, if_false]
  obtain ⟨b', hb'⟩ := Option.isSome_iff_exists.mp hfind
  simp [hb']

/-- Witness for `C2_yours_precedence`: a booking `[10:00, 11:00)` on epoch
day 0 makes the `10:00` slot `yours` although the slot is also in the
availability set. -/
theorem C2_yours_precedence_witness :
    (getSlotStatus "r1" 10 0 [⟨"b1", "r1", "Active", slotInstant 0 10, slotInstant 0 11⟩]
      ["r1_10", "r1_11"] true 0).status = .yours :=
  (C2_yours_precedence "r1" 10 0
    [⟨"b1", "r1", "Active", slotInstant 0 10, slotInstant 0 11⟩]
    ["r1_10", "r1_11"] 0
    ⟨"b1", "r1", "Active", slotInstant 0 10, slotInstant 0 11⟩
    (by decide) (by decide) rfl rfl (by decide) (by decide)).1

/-- Claim C3: `isBookableDate` returns `true` iff the difference
(date − today), measured in whole days between local midnight-aligned
calendar dates, lies between `0` and `3` inclusive; it is independent of
the time of day at which it is evaluated (replacing `now` by the local
midnight of its day changes nothing); and it is `true` for `today + 3`
days, `false` for `today + 4` days, and `false` for `today − 1` day. -/
theorem C3_booking_horizon (nowMs targetMs : Int) :
    (isBookableDate nowMs targetMs = true ↔
      (0 ≤ localDay targetMs - localDay nowMs ∧
        localDay targetMs - localDay nowMs ≤ 3)) ∧
    isBookableDate nowMs targetMs = isBookableDate (localDay nowMs * dayMs) targetMs ∧
    isBookableDate nowMs ((localDay nowMs + 3) * dayMs) = true ∧
    isBookableDate nowMs ((localDay nowMs + 4) * dayMs) = false ∧
    isBookableDate nowMs ((localDay nowMs - 1) * dayMs) = false := by
  have hday : (0 : Int) < dayMs := by decide
  have hmid : ∀ k : Int, localDay (k * dayMs) = k := fun k => by
    simp [localDay, Int.mul_fdiv_cancel _ hday.ne']
  have hdiff : ∀ a b : Int, (a * dayMs - b * dayMs).fdiv dayMs = a - b := fun a b => by
    rw [← sub_mul, Int.mul_fdiv_cancel _ hday.ne']
  constructor
  · simp [isBookableDate, hdiff]
  refine ⟨?_, ?_, ?_, ?_⟩
  · simp [isBookableDate, hmid]
  · simp [isBookableDate, hdiff, hmid]
  · simp [isBookableDate, hdiff, hmid]
  · simp [isBookableDate, hdiff, hmid]

-- ============================================
-- Availability reduction (src/lib/hooks.ts, useAvailability)
-- ============================================

/-- One server-reported time slot (`TimeSlotAvailability` of
src/lib/types.ts); the fields not read by the reduction are omitted. -/
structure TimeSlotA where
  startTime : String
  endTime : String
  status : String
deriving DecidableEq, Repr

/-- One resource of the availability response (`ResourceAvailability`);
`timeSlots := none` models a response object missing the `timeSlots`
array (the code reads `res.timeSlots || []`). -/
structure ResourceA where
  id : String
  timeSlots : Option (List TimeSlotA)
deriving DecidableEq, Repr

/-- The availability response; `resources := none` models a response
missing the `resources` array (the code reads `apiResult.resources || []`). -/
structure AvailResponse where
  resources : Option (List ResourceA)
deriving DecidableEq, Repr

/-- The first match of the regular expression `/(\d{2}):\d{2}/` at the head
of the character list: two digits, a colon, two digits; returns the value
of the first captured two-digit group. -/
def hhmmAt : List Char → Option Nat
  | a :: b :: c :: d :: e :: _ =>
    if a.isDigit && b.isDigit && c == ':' && d.isDigit && e.isDigit then
      some ((a.toNat - 48) * 10 + (b.toNat - 48))
    else
      none
  | _ => none

/-- Leftmost match of `/(\d{2}):\d{2}/` over a character list. -/
def findHHMMCore : List Char → Option Nat
  | [] => none
  | a :: rest =>
    match hhmmAt (a :: rest) with
    | some h => some h
    | none => findHHMMCore rest

/-- Model of `t.match(/(\d{2}):\d{2}/)` followed by `parseInt(m[1], 10)`:
the hour digits of the leftmost `HH:MM` occurrence in `t`. -/
def findHHMM (t : String) : Option Nat := findHHMMCore t.data

/-- The inner `parseHour` of `useAvailability`.  The fallback
`new Date(t).getUTCHours()` (with `NaN` for an invalid date) is modelled by
the oracle `dateParse : String → Option Nat`, since the reduction is
independent of the JavaScript date-parsing internals. -/
def parseHour (dateParse : String → Option Nat) (t : String) : Option Nat :=
  match findHHMM t with
  | some h => some h
  | none => dateParse t

/-- The `Map<string, Set<string>>` being built, with hour keys and
insertion-ordered sets, as an association list. -/
def HourMap : Type := List (Nat × List String)

/-- Model of `map.get(h)`. -/
def mapGet : HourMap → Nat → Option (List String)
  | [], _ => none
  | (k, v) :: rest, h => if k = h then some v else mapGet rest h

/-- Model of `map.set(h, v)`: replace the binding of `h`, or append one. -/
def mapSet : HourMap → Nat → List String → HourMap
  | [], h, v => [(h, v)]
  | (k, w) :: rest, h, v =>
    if k = h then (h, v) :: rest else (k, w) :: mapSet rest h v

/-- Model of `set.add(x)` on a `Set<string>` (no-op when already present). -/
def setAdd (s : List String) (x : String) : List String :=
  if x ∈ s then s else s ++ [x]

/-- The loop body `const set = map.get(String(h)) ?? new Set(); set.add(res.id);
map.set(String(h), set)`. -/
def addRid (m : HourMap) (h : Nat) (rid : String) : HourMap :=
  mapSet m h (setAdd ((mapGet m h).getD []) rid)

/-- Model of `for (let h = startHour; h < endHour; h++) { … add rid … }`. -/
def addHours (m : HourMap) (rid : String) (s e : Nat) : HourMap :=
  (List.range' s (e - s)).foldl (fun m h => addRid m h rid) m

/-- Processing of one time slot of one resource: skip unless the status is
`"available"`; skip when either boundary hour fails to parse; otherwise add
the resource id to every whole hour `startHour ≤ h < endHour`. -/
def processSlot (dateParse : String → Option Nat) (rid : String)
    (m : HourMap) (ts : TimeSlotA) : HourMap :=
  if ts.status ≠ "available" then m
  else
    match parseHour dateParse ts.startTime, parseHour dateParse ts.endTime with
    | some sh, some eh => addHours m rid sh eh
    | some _, none => m
    | none, _ => m

/-- Processing of one resource of the response: fold its slots
(`res.timeSlots || []`). -/
def processResource (dateParse : String → Option Nat)
    (m : HourMap) (res : ResourceA) : HourMap :=
  (res.timeSlots.getD []).foldl (processSlot dateParse res.id) m

/-- The whole reduction of `useAvailability`: from the server response to
the hour → set-of-resource-ids map (`apiResult.resources || []`, starting
from the empty map). -/
def buildAvailabilityMap (dateParse : String → Option Nat)
    (resp : AvailResponse) : HourMap :=
  (resp.resources.getD []).foldl (processResource dateParse) []

/-- Resource id `rid` is in the set for hour `h` of the built map. -/
def memberAt (m : HourMap) (h : Nat) (rid : String) : Prop :=
  rid ∈ (mapGet m h).getD []

instance (m : HourMap) (h : Nat) (rid : String) : Decidable (memberAt m h rid) := by
  unfold memberAt; infer_instance

/-- The condition under which a single reported slot contributes resource
`rid` at hour `h`: it is reported `available` and both boundaries parse to
hours with `startHour ≤ h < endHour`. -/
def slotYields (dateParse : String → Option Nat) (ts : TimeSlotA) (h : Nat) : Prop :=
  ts.status = "available" ∧
    ∃ sh eh, parseHour dateParse ts.startTime = some sh ∧
      parseHour dateParse ts.endTime = some eh ∧ sh ≤ h ∧ h < eh

theorem mapGet_mapSet (m : HourMap) (h h' : Nat) (v : List String) :
    mapGet (mapSet m h v) h' = if h = h' then some v else mapGet m h' := by
  induction m with
  | nil => simp [mapSet, mapGet]
  | cons p rest ih =>
    obtain ⟨k, w⟩ := p
    by_cases hk : k = h
    · subst hk
      simp only [mapSet, if_pos rfl, mapGet]
      by_cases hh : k = h' <;> simp [hh]
    · simp only [mapSet, if_neg hk, mapGet, ih]
      by_cases hh : k = h'
      · have hh' : ¬ h = h' := fun e => hk (e ▸ hh)
        simp [hh, hh']
      · simp [hh]

theorem mem_setAdd (s : List String) (x r : String) :
    r ∈ setAdd s x ↔ r = x ∨ r ∈ s := by
  unfold setAdd
  by_cases hx : x ∈ s
  · simp only [if_pos hx]
    constructor
    · exact Or.inr
    · rintro (rfl | hr)
      · exact hx
      · exact hr
  · simp [if_neg hx, List.mem_append, or_comm]

theorem memberAt_addRid (m : HourMap) (h h' : Nat) (rid r : String) :
    memberAt (addRid m h rid) h' r ↔ (h' = h ∧ r = rid) ∨ memberAt m h' r := by
  unfold memberAt addRid
  rw [mapGet_mapSet]
  by_cases hh : h = h'
  · subst hh
    simp [mem_setAdd, eq_comm]
  · have hh' : ¬ h' = h := fun e => hh e.symm
    simp [hh, hh']

theorem memberAt_foldl_addRid (hs : List Nat) (m : HourMap) (rid : String)
    (h : Nat) (r : String) :
    memberAt (hs.foldl (fun m hh => addRid m hh rid) m) h r ↔
      (h ∈ hs ∧ r = rid) ∨ memberAt m h r := by
  induction hs generalizing m with
  | nil => simp
  | cons a rest ih =>
    simp only [List.foldl_cons, ih, memberAt_addRid, List.mem_cons]
    tauto

theorem memberAt_addHours (m : HourMap) (rid : String) (s e : Nat)
    (h : Nat) (r : String) :
    memberAt (addHours m rid s e) h r ↔
      (s ≤ h ∧ h < e ∧ r = rid) ∨ memberAt m h r := by
  unfold addHours
  rw [memberAt_foldl_addRid, List.mem_range'_1]
  constructor
  · rintro (⟨⟨h₁, h₂⟩, rfl⟩ | hm)
    · exact Or.inl ⟨h₁, by omega, rfl⟩
    · exact Or.inr hm
  · rintro (⟨h₁, h₂, rfl⟩ | hm)
    · exact Or.inl ⟨⟨h₁, by omega⟩, rfl⟩
    · exact Or.inr hm

theorem memberAt_processSlot (dateParse : String → Option Nat) (rid : String)
    (m : HourMap) (ts : TimeSlotA) (h : Nat) (r : String) :
    memberAt (processSlot dateParse rid m ts) h r ↔
      (slotYields dateParse ts h ∧ r = rid) ∨ memberAt m h r := by
  unfold processSlot slotYields
  by_cases hst : ts.status = "available"
  · simp only [hst, ne_eq, not_true_eq_false, if_false, true_and]
    cases hs : parseHour dateParse ts.startTime with
    | none => simp [hs]
    | some sh =>
      cases he : parseHour dateParse ts.endTime with
      | none => simp [hs, he]
      | some eh =>
        rw [memberAt_addHours]
        constructor
        · rintro (⟨h₁, h₂, rfl⟩ | hm)
          · exact Or.inl ⟨⟨sh, eh, rfl, rfl, h₁, h₂⟩, rfl⟩
          · exact Or.inr hm
        · rintro (⟨⟨sh', eh', hsh, heh, h₁, h₂⟩, rfl⟩ | hm)
          · obtain rfl := Option.some.inj hsh
            obtain rfl := Option.some.inj heh
            exact Or.inl ⟨h₁, h₂, rfl⟩
          · exact Or.inr hm
  · simp [hst]

theorem memberAt_foldl_processSlot (dateParse : String → Option Nat)
    (rid : String) (tss : List TimeSlotA) (m : HourMap) (h : Nat) (r : String) :
    memberAt (tss.foldl (processSlot dateParse rid) m) h r ↔
      ((∃ ts ∈ tss, slotYields dateParse ts h) ∧ r = rid) ∨ memberAt m h r := by
  induction tss generalizing m with
  | nil => simp
  | cons ts rest ih =>
    simp only [List.foldl_cons, ih, memberAt_processSlot, List.mem_cons]
    constructor
    · rintro (⟨⟨ts', hts', hy⟩, rfl⟩ | ⟨hy, rfl⟩ | hm)
      · exact Or.inl ⟨⟨ts', Or.inr hts', hy⟩, rfl⟩
      · exact Or.inl ⟨⟨ts, Or.inl rfl, hy⟩, rfl⟩
      · exact Or.inr hm
    · rintro (⟨⟨ts', rfl | hts', hy⟩, rfl⟩ | hm)
      · exact Or.inr (Or.inl ⟨hy, rfl⟩)
      · exact Or.inl ⟨⟨ts', hts', hy⟩, rfl⟩
      · exact Or.inr (Or.inr hm)

theorem memberAt_processResource (dateParse : String → Option Nat)
    (m : HourMap) (res : ResourceA) (h : Nat) (r : String) :
    memberAt (processResource dateParse m res) h r ↔
      ((∃ ts ∈ res.timeSlots.getD [], slotYields dateParse ts h) ∧ r = res.id) ∨
        memberAt m h r := by
  unfold processResource
  exact memberAt_foldl_processSlot dateParse res.id _ m h r

theorem memberAt_foldl_processResource (dateParse : String → Option Nat)
    (rs : List ResourceA) (m : HourMap) (h : Nat) (r : String) :
    memberAt (rs.foldl (processResource dateParse) m) h r ↔
      (∃ res ∈ rs, r = res.id ∧ ∃ ts ∈ res.timeSlots.getD [],
        slotYields dateParse ts h) ∨ memberAt m h r := by
  induction rs generalizing m with
  | nil => simp
  | cons res rest ih =>
    simp only [List.foldl_cons, ih, memberAt_processResource, List.mem_cons]
    constructor
    · rintro (⟨res', hres', rfl, hy⟩ | ⟨⟨ts, hts, hy⟩, rfl⟩ | hm)
      · exact Or.inl ⟨res', Or.inr hres', rfl, hy⟩
      · exact Or.inl ⟨res, Or.inl rfl, rfl, ts, hts, hy⟩
      · exact Or.inr hm
    · rintro (⟨res', rfl | hres', rfl, ts, hts, hy⟩ | hm)
      · exact Or.inr (Or.inl ⟨⟨ts, hts, hy⟩, rfl⟩)
      · exact Or.inl ⟨res', hres', rfl, ts, hts, hy⟩
      · exact Or.inr (Or.inr hm)

theorem memberAt_nil (h : Nat) (r : String) : ¬ memberAt [] h r := by
  simp [memberAt, mapGet]

/-- Claim C4: The hour → set-of-resource-ids map built by `useAvailability`
contains resource id `r` in the set for hour `h` if and only if the
response contains, for a resource with id `r`, a time slot with status
`"available"` whose extracted start hour `≤ h <` extracted end hour — for
every date-parsing oracle, i.e. whether boundaries are `"HH:MM"` strings or
full timestamps (the hour component is extracted from both, as the two
`parseHour` equations show); hours covered by no available slot have no
entry. -/
theorem C4_availability_map (dateParse : String → Option Nat)
    (resp : AvailResponse) (h : Nat) (r : String) :
    (memberAt (buildAvailabilityMap dateParse resp) h r ↔
      ∃ res ∈ resp.resources.getD [], res.id = r ∧
        ∃ ts ∈ res.timeSlots.getD [], ts.status = "available" ∧
          ∃ sh eh, parseHour dateParse ts.startTime = some sh ∧
            parseHour dateParse ts.endTime = some eh ∧ sh ≤ h ∧ h < eh) ∧
    parseHour dateParse "07:00" = some 7 ∧
    parseHour dateParse "2026-02-20T07:00:00" = some 7 := by
  refine ⟨?_, by simp [parseHour, show findHHMM "07:00" = some 7 by decide],
    by simp [parseHour, show findHHMM "2026-02-20T07:00:00" = some 7 by decide]⟩
  unfold buildAvailabilityMap
  rw [memberAt_foldl_processResource]
  simp only [memberAt_nil, or_false]
  constructor
  · rintro ⟨res, hres, rfl, ts, hts, hy⟩
    exact ⟨res, hres, rfl, ts, hts, hy.1, hy.2⟩
  · rintro ⟨res, hres, rfl, ts, hts, hst, hrest⟩
    exact ⟨res, hres, rfl, ts, hts, hst, hrest⟩

/-- Claim C10: The availability reduction never fails on malformed input: a
missing `resources` array yields the empty map, a resource with a missing
`timeSlots` array contributes nothing, and a slot either of whose
boundaries fails both the `HH:MM` pattern and timestamp parsing is skipped
silently (contributes no hours), for every date-parsing oracle. -/
theorem C10_malformed_input_safe (dateParse : String → Option Nat) :
    buildAvailabilityMap dateParse ⟨none⟩ = [] ∧
    (∀ (m : HourMap) (res : ResourceA), res.timeSlots = none →
      processResource dateParse m res = m) ∧
    (∀ (m : HourMap) (rid : String) (ts : TimeSlotA),
      parseHour dateParse ts.startTime = none ∨
        parseHour dateParse ts.endTime = none →
      processSlot dateParse rid m ts = m) := by
  refine ⟨rfl, ?_, ?_⟩
  · intro m res h
    simp [processResource, h]
  · intro m rid ts h
    unfold processSlot
    by_cases hst : ts.status = "available"
    · rw [if_neg (by simp [hst])]
      rcases h with h | h
      · rw [h]
      · rw [h]
        cases parseHour dateParse ts.startTime <;> rfl
    · rw [if_pos (by simp [hst])]

/-- Witness for `C10_malformed_input_safe`: the trivial oracle on a missing
`resources` array, and a slot with unparseable `startTime` on the empty
map. -/
theorem C10_malformed_input_safe_witness :
    buildAvailabilityMap (fun _ => none) ⟨none⟩ = [] ∧
    processSlot (fun _ => none) "r1" [] ⟨"garbage", "08:00", "available"⟩ = [] :=
  ⟨(C10_malformed_input_safe (fun _ => none)).1,
   (C10_malformed_input_safe (fun _ => none)).2.2 [] "r1"
     ⟨"garbage", "08:00", "available"⟩ (Or.inl (by decide))⟩

-- ============================================
-- Session store and authenticated request client (src/lib/api.ts)
-- ============================================

/-- The structured `ApiError` payload (`title`, `status`, `detail`). -/
structure ApiErr where
  title : String
  status : Nat
  detail : String
deriving DecidableEq, Repr

/-- An HTTP response as read by `handleResponse`: status, `statusText`,
and the body text. -/
structure HttpResponse where
  status : Nat
  statusText : String
  body : String
deriving DecidableEq, Repr

/-- Model of `response.ok`: status in the range 200–299. -/
def responseOk (r : HttpResponse) : Bool :=
  decide (200 ≤ r.status) && decide (r.status ≤ 299)

/-- Model of `handleResponse` of src/lib/api.ts.  `parseErr` models
`response.json()` read as an `ApiError` (`none` = the parse throws);
`parseBody` models `JSON.parse(text) as T` (`none` = the parse throws);
`emptyObj` is the `{} as T` fallback value. -/
def handleResponse {T : Type} (parseErr : String → Option ApiErr)
    (parseBody : String → Option T) (emptyObj : T)
    (r : HttpResponse) : Except ApiErr T :=
  if responseOk r = false then
    .error
      (match parseErr r.body with
       | some e => e
       | none =>
         ⟨"Error", r.status,
          if r.statusText ≠ "" then r.statusText
          else "An unexpected error occurred"⟩)
  else if r.body = "" then .ok emptyObj
  else
    match parseBody r.body with
    | some v => .ok v
    | none => .ok emptyObj

/-- Claim C9: `handleResponse` is total on success responses: for every
response with 2xx status it resolves (is `Except.ok`), and when the body is
empty or is not parseable JSON it resolves with the empty object, for every
body parser — callers never observe a parse failure on a success status. -/
theorem C9_handleResponse_total_on_success {T : Type}
    (parseErr : String → Option ApiErr) (parseBody : String → Option T)
    (emptyObj : T) (r : HttpResponse)
    (h₁ : 200 ≤ r.status) (h₂ : r.status ≤ 299) :
    (∃ v, handleResponse parseErr parseBody emptyObj r = .ok v) ∧
    ((r.body = "" ∨ parseBody r.body = none) →
      handleResponse parseErr parseBody emptyObj r = .ok emptyObj) := by
  have hok : responseOk r = true := by
    simp [responseOk, h₁, h₂]
  unfold handleResponse
  rw [hok]
  simp only [Bool.true_eq_false, if_false]
  constructor
  · by_cases hb : r.body = ""
    · exact ⟨emptyObj, by simp [hb]⟩
    · rw [if_neg hb]
      cases hp : parseBody r.body with
      | none => exact ⟨emptyObj, rfl⟩
      | some v => exact ⟨v, rfl⟩
  · rintro (hb | hp)
    · simp [hb]
    · by_cases hb : r.body = ""
      · simp [hb]
      · rw [if_neg hb, hp]

/-- Witness for `C9_handleResponse_total_on_success`: a 200 response with
an unparseable body resolves with the empty object. -/
theorem C9_handleResponse_total_on_success_witness :
    handleResponse (T := Nat) (fun _ => none) (fun _ => none) 0
      ⟨200, "OK", "not json"⟩ = .ok 0 :=
  (C9_handleResponse_total_on_success (fun _ => none) (fun _ => none) 0
    ⟨200, "OK", "not json"⟩ (by decide) (by decide)).2
    (Or.inr rfl)

/-- The session state: in-memory/durable access token, refresh token and
stored user profile (cleared together by `clearTokens`). -/
structure SessionState where
  accessToken : Option String
  refreshToken : Option String
  storedUser : Option String
deriving DecidableEq, Repr

/-- Model of `setTokens` of src/lib/api.ts. -/
def setTokens (access refresh : String) (s : SessionState) : SessionState :=
  { s with accessToken := some access, refreshToken := some refresh }

/-- Model of `clearTokens` of src/lib/api.ts: removes the access token, the refresh
token, and the stored user. -/
def clearTokens (_ : SessionState) : SessionState :=
  ⟨none, none, none⟩

/-- The environment of one `authFetch` run: the status of the first
response to the original request, the outcome of the `/auth/refresh` HTTP
call if it were made (`some (access, refresh)` = 2xx with fresh tokens,
`none` = non-ok response or network failure), the status of the retried
request, and whether a browser `window` is present. -/
structure AuthEnv where
  firstStatus : Nat
  refreshOutcome : Option (String × String)
  retryStatus : Nat
  hasWindow : Bool
deriving DecidableEq, Repr

/-- Observable trace of one `authFetch` run: how many HTTP calls were made
to `/auth/refresh`, how many fetches of the original request URL, the
`Authorization` header used on the retry (if any), and whether the engine
navigated to `/login`. -/
structure AuthTrace where
  refreshCalls : Nat
  originalCalls : Nat
  retryAuthHeader : Option String
  redirectedToLogin : Bool
deriving DecidableEq, Repr

/-- The result of `authFetch`: either the final response is handed to
`handleResponse` (summarised by its status), or the run throws the
`Session Expired` `ApiError`. -/
inductive AuthResult where
  | handled (status : Nat)
  | thrown (e : ApiErr)
deriving DecidableEq, Repr

/-- The `ApiError` literal thrown by `authFetch` when renewal fails. -/
def sessionExpiredError : ApiErr :=
  ⟨"Session Expired", 401, "Please log in again."⟩

/-- Outcome of `refreshAccessToken`: its boolean result, the session state
after it, and the number of HTTP calls to `/auth/refresh` it made. -/
structure RefreshOut where
  ok : Bool
  state : SessionState
  calls : Nat
deriving DecidableEq, Repr

/-- Model of `refreshAccessToken` of src/lib/api.ts: returns `false` without any
network call when no refresh token is stored; otherwise calls
`/auth/refresh` once, storing the fresh tokens on success and clearing the
session on failure. -/
def refreshAccessToken (env : AuthEnv) (s : SessionState) : RefreshOut :=
  match s.refreshToken with
  | none => ⟨false, s, 0⟩
  | some _ =>
    match env.refreshOutcome with
    | some (access, refresh) => ⟨true, setTokens access refresh s, 1⟩
    | none => ⟨false, clearTokens s, 1⟩

/-- Outcome of `authFetch`: result, final session state, trace. -/
structure AuthOut where
  result : AuthResult
  state : SessionState
  trace : AuthTrace
deriving DecidableEq, Repr

/-- Model of `authFetch` of src/lib/api.ts.  The original request is fetched once;
on a 401 it runs `refreshAccessToken`; on successful renewal it retries the
original request once with `Authorization: Bearer <new access token>`; on
failed renewal it clears the session, navigates to `/login` when a browser
window is present, and throws the `Session Expired` error. -/
def authFetch (env : AuthEnv) (s : SessionState) : AuthOut :=
  if env.firstStatus = 401 then
    let ro := refreshAccessToken env s
    if ro.ok then
      { result := .handled env.retryStatus
        state := ro.state
        trace :=
          { refreshCalls := ro.calls, originalCalls := 2
            retryAuthHeader := ro.state.accessToken.map (fun t => "Bearer " ++ t)
            redirectedToLogin := false } }
    else
      { result := .thrown sessionExpiredError
        state := clearTokens ro.state
        trace :=
          { refreshCalls := ro.calls, originalCalls := 1
            retryAuthHeader := none
            redirectedToLogin := env.hasWindow } }
  else
    { result := .handled env.firstStatus
      state := s
      trace :=
        { refreshCalls := 0, originalCalls := 1
          retryAuthHeader := none, redirectedToLogin := false } }

/-- Claim C5: For every request whose first response has status 401: if a
refresh token is stored and the renewal call succeeds, exactly one renewal
call is made and the original request is retried exactly once (two fetches
of the original URL in total) with the new access token; if no refresh
token is stored, zero renewal calls are made, the original request is not
retried, and the call fails immediately with the `Session Expired` error. -/
theorem C5_renewal_on_401 (env : AuthEnv) (s : SessionState)
    (h401 : env.firstStatus = 401) :
    (∀ rt access refresh, s.refreshToken = some rt →
      env.refreshOutcome = some (access, refresh) →
      (authFetch env s).trace.refreshCalls = 1 ∧
      (authFetch env s).trace.originalCalls = 2 ∧
      (authFetch env s).trace.retryAuthHeader = some ("Bearer " ++ access)) ∧
    (s.refreshToken = none →
      (authFetch env s).trace.refreshCalls = 0 ∧
      (authFetch env s).trace.originalCalls = 1 ∧
      (authFetch env s).result = .thrown sessionExpiredError) := by
  constructor
  · intro rt access refresh hrt hout
    simp [authFetch, h401, refreshAccessToken, hrt, hout, setTokens]
  · intro hrt
    simp [authFetch, h401, refreshAccessToken, hrt]

/-- Witness for `C5_renewal_on_401`: with stored tokens and a successful
renewal delivering access token `"a2"`, the run makes one renewal call,
two fetches of the original URL, and retries with `Bearer a2`; with no
refresh token, zero renewal calls and an immediate `Session Expired`. -/
theorem C5_renewal_on_401_witness :
    ((authFetch ⟨401, some ("a2", "r2"), 200, true⟩
        ⟨some "a1", some "r1", some "u"⟩).trace.refreshCalls = 1 ∧
      (authFetch ⟨401, some ("a2", "r2"), 200, true⟩
        ⟨some "a1", some "r1", some "u"⟩).trace.originalCalls = 2 ∧
      (authFetch ⟨401, some ("a2", "r2"), 200, true⟩
        ⟨some "a1", some "r1", some "u"⟩).trace.retryAuthHeader =
          some ("Bearer " ++ "a2")) ∧
    ((authFetch ⟨401, some ("a2", "r2"), 200, true⟩
        ⟨some "a1", none, some "u"⟩).trace.refreshCalls = 0 ∧
      (authFetch ⟨401, some ("a2", "r2"), 200, true⟩
        ⟨some "a1", none, some "u"⟩).trace.originalCalls = 1 ∧
      (authFetch ⟨401, some ("a2", "r2"), 200, true⟩
        ⟨some "a1", none, some "u"⟩).result = .thrown sessionExpiredError) :=
  ⟨(C5_renewal_on_401 ⟨401, some ("a2", "r2"), 200, true⟩
      ⟨some "a1", some "r1", some "u"⟩ rfl).1 "r1" "a2" "r2" rfl rfl,
   (C5_renewal_on_401 ⟨401, some ("a2", "r2"), 200, true⟩
      ⟨some "a1", none, some "u"⟩ rfl).2 rfl⟩

/-- Counterexample to claim C6: The claim states that after a failed renewal the
engine performs no redirect to the authentication page.  In fact, when a
browser window is present (`hasWindow = true`) the failed-renewal branch of
`authFetch` sets `window.location.href = "/login"`: the trace of this
concrete run records a redirect. -/
theorem C6_counterexample_engine_redirects :
    (authFetch ⟨401, none, 200, true⟩
      ⟨some "a1", some "r1", some "u"⟩).trace.redirectedToLogin = true := by
  decide

/-- Claim C6 as amended: Whenever renewal after a 401 fails (missing refresh
token, or the renewal call itself fails), `authFetch` clears all session
state (access token, refresh token, stored user) and fails the call with
the `Session Expired` error; in addition, exactly when a browser window is
present, the engine itself redirects to the login page. -/
theorem C6_session_cleared_on_failed_renewal (env : AuthEnv) (s : SessionState)
    (h401 : env.firstStatus = 401)
    (hfail : s.refreshToken = none ∨ env.refreshOutcome = none) :
    (authFetch env s).state = ⟨none, none, none⟩ ∧
    (authFetch env s).result = .thrown sessionExpiredError ∧
    (authFetch env s).trace.redirectedToLogin = env.hasWindow := by
  rcases hfail with hf | hf
  · simp [authFetch, h401, refreshAccessToken, hf, clearTokens]
  · cases hrt : s.refreshToken with
    | none => simp [authFetch, h401, refreshAccessToken, hrt, clearTokens]
    | some rt => simp [authFetch, h401, refreshAccessToken, hrt, hf, clearTokens]

/-- Witness for `C6_session_cleared_on_failed_renewal`: a 401 whose renewal
call fails, with a browser window present. -/
theorem C6_session_cleared_on_failed_renewal_witness :
    (authFetch ⟨401, none, 200, true⟩ ⟨some "a1", some "r1", some "u"⟩).state =
        ⟨none, none, none⟩ ∧
      (authFetch ⟨401, none, 200, true⟩ ⟨some "a1", some "r1", some "u"⟩).result =
        .thrown sessionExpiredError ∧
      (authFetch ⟨401, none, 200, true⟩
        ⟨some "a1", some "r1", some "u"⟩).trace.redirectedToLogin =
        (⟨401, none, 200, true⟩ : AuthEnv).hasWindow :=
  C6_session_cleared_on_failed_renewal ⟨401, none, 200, true⟩
    ⟨some "a1", some "r1", some "u"⟩ rfl (Or.inr rfl)

-- ============================================
-- Cache invalidation fan-out of the booking flow
-- (src/lib/hooks.ts invalidateBookings / invalidateResources,
--  called from BookingDialog.handleConfirm on success)
-- ============================================

/-- One element of an SWR cache key array: the keys used by the hooks mix
strings (kind tag, type, date) and numbers (page size, page number). -/
inductive CacheKeyElem where
  | str (s : String)
  | num (n : Nat)
deriving DecidableEq, Repr

/-- An SWR cache key: an array key, or a plain string key (such as
`"resources-refresh-signal"`). -/
inductive CacheKey where
  | arr (elems : List CacheKeyElem)
  | plain (s : String)
deriving DecidableEq, Repr

/-- The key predicate of `invalidateBookings`: array keys whose head is
`"user-bookings"` or `"available-resources"`; everything else `false`. -/
def invalidateBookingsPred : CacheKey → Bool
  | .arr (.str s :: _) => s == "user-bookings" || s == "available-resources"
  | _ => false

/-- The key predicate of `invalidateResources`: array keys with head
`"resources"`, and — when a type is given — second element equal to the
type; everything else `false`. -/
def invalidateResourcesPred (type? : Option String) : CacheKey → Bool
  | .arr (.str s :: rest) =>
    if s == "resources" then
      match type? with
      | none => true
      | some t =>
        match rest with
        | .str s₁ :: _ => s₁ == t
        | _ => false
    else false
  | _ => false

/-- The set of cache keys invalidated (marked for revalidation) by the
booking flow on success: `BookingDialog.handleConfirm` calls
`invalidateBookings()` then `invalidateResources(resource.type)`. -/
def bookingFlowInvalidates (resourceType : String) (k : CacheKey) : Bool :=
  invalidateBookingsPred k || invalidateResourcesPred (some resourceType) k

/-- Fact: `invalidateResources` unconditionally also mutates the plain key
`"resources-refresh-signal"` (with a fresh timestamp, `revalidate: false`),
so the flow always emits the catalog refresh signal. -/
def bookingFlowEmitsRefreshSignal : Bool := true

/-- Counterexample to claim C7: The claim states that the booking flow
invalidates all Availability cache entries for the booked resource's type
(the SWR keys `["availability", type, date]` of `useAvailability`) and no
other entries.  In fact the flow's predicates never match an
`"availability"` key — the availability entry for the booked type and a
cached date is not invalidated — while a Resource Catalog key
(`["resources", type, pageSize]`), which the claim does not allow, is. -/
theorem C7_counterexample_availability_key_not_invalidated :
    bookingFlowInvalidates "Room"
      (.arr [.str "availability", .str "Room", .str "2026-01-01"]) = false ∧
    bookingFlowInvalidates "Room"
      (.arr [.str "resources", .str "Room", .num 100]) = true := by
  decide

/-- Claim C7 as amended: On a successful `createBooking`, the booking flow
invalidates exactly: every array key headed `"user-bookings"` (the Booking
Ledger entries), every array key headed `"available-resources"` (the coarse
availability entries, all types), and every `"resources"` catalog key whose
second element is the booked resource's type — and it emits the catalog
refresh signal.  The `["availability", type, date]` hour-map entries are
not invalidated directly (they are refreshed only indirectly, via the
signal listener, for the currently displayed key). -/
theorem C7_booking_flow_invalidation (t : String) (k : CacheKey) :
    (bookingFlowInvalidates t k = true ↔
      (∃ rest, k = .arr (.str "user-bookings" :: rest)) ∨
      (∃ rest, k = .arr (.str "available-resources" :: rest)) ∨
      (∃ rest, k = .arr (.str "resources" :: .str t :: rest))) ∧
    bookingFlowEmitsRefreshSignal = true := by
  refine ⟨?_, rfl⟩
  cases k with
  | plain s =>
    simp [bookingFlowInvalidates, invalidateBookingsPred, invalidateResourcesPred]
  | arr es =>
    cases es with
    | nil =>
      simp [bookingFlowInvalidates, invalidateBookingsPred, invalidateResourcesPred]
    | cons e rest =>
      cases e with
      | num n =>
        simp [bookingFlowInvalidates, invalidateBookingsPred, invalidateResourcesPred]
      | str s =>
        by_cases h₁ : s = "user-bookings"
        · subst h₁
          simp [bookingFlowInvalidates, invalidateBookingsPred]
        · by_cases h₂ : s = "available-resources"
          · subst h₂
            simp [bookingFlowInvalidates, invalidateBookingsPred]
          · by_cases h₃ : s = "resources"
            · subst h₃
              cases rest with
              | nil =>
                simp [bookingFlowInvalidates, invalidateBookingsPred,
                  invalidateResourcesPred]
              | cons e₂ r₂ =>
                cases e₂ with
                | num n =>
                  simp [bookingFlowInvalidates, invalidateBookingsPred,
                    invalidateResourcesPred]
                | str s₂ =>
                  by_cases h₄ : s₂ = t
                  · subst h₄
                    simp [bookingFlowInvalidates, invalidateBookingsPred,
                      invalidateResourcesPred]
                  · simp [bookingFlowInvalidates, invalidateBookingsPred,
                      invalidateResourcesPred, h₄]
            · simp [bookingFlowInvalidates, invalidateBookingsPred,
                invalidateResourcesPred, h₁, h₂, h₃]

-- ============================================
-- Ledger-count → availability revalidation trigger
-- (dashboard page, prevBookingsCountRef effect)
-- ============================================

/-- One run of the `prevBookingsCountRef` effect body: given the previous
reference value and the newly observed count
(`bookingsData?.items?.length ?? null`), it fires `mutateAvailability`
exactly when the reference is non-null and the count differs from it, and
then stores the count in the reference. -/
def countTriggerFires (prev count : Option Nat) : Bool :=
  prev.isSome && decide (count ≠ prev)

/-- The fire/no-fire outcomes of the effect along a sequence of observed
values, threading the reference (which starts as `null`). -/
def runCountTrigger : Option Nat → List (Option Nat) → List Bool
  | _, [] => []
  | prev, o :: rest => countTriggerFires prev o :: runCountTrigger o rest

/-- The trigger as mounted on the dashboard: the reference starts `null`. -/
def dashboardCountTrigger (obs : List (Option Nat)) : List Bool :=
  runCountTrigger none obs

/-- Modelled from the spec claim's words (for comparison): after the first
observation — which never fires — the trigger fires exactly when the newly
observed count differs from the previously observed one. -/
def claimedCountFiresAux : Nat → List Nat → List Bool
  | _, [] => []
  | prev, c :: rest => decide (c ≠ prev) :: claimedCountFiresAux c rest

/-- Modelled from the spec claim's words: the very first observation never
fires. -/
def claimedCountFires : List Nat → List Bool
  | [] => []
  | c :: rest => false :: claimedCountFiresAux c rest

theorem runCountTrigger_some (prev : Nat) (cs : List Nat) :
    runCountTrigger (some prev) (cs.map some) = claimedCountFiresAux prev cs := by
  induction cs generalizing prev with
  | nil => rfl
  | cons c rest ih =>
    simp only [List.map_cons, runCountTrigger, countTriggerFires,
      claimedCountFiresAux, ih]
    simp [Option.some.injEq]

/-- Claim C8: For every sequence of observed user-booking counts, the
availability revalidation fires exactly when the newly observed count
differs from the previously observed count — never when unchanged and never
on the very first observation. -/
theorem C8_count_trigger_fires_on_change (cs : List Nat) :
    dashboardCountTrigger (cs.map some) = claimedCountFires cs := by
  cases cs with
  | nil => rfl
  | cons c rest =>
    simp only [dashboardCountTrigger, List.map_cons, runCountTrigger,
      countTriggerFires, claimedCountFires, runCountTrigger_some]
    rfl

-- ============================================
-- Concrete evaluations of the embedded definitions
-- ============================================

example :
    getSlotStatus "r1" 10 0 [] ["r1_10"] true (slotInstant 0 11) = { status := .past } := by
  decide

example :
    getSlotStatus "r1" 10 0 [⟨"b1", "r1", "Active", slotInstant 0 10, slotInstant 0 11⟩]
      ["r1_10"] true 0 = { status := .yours, bookingId := some "b1" } := by
  decide

example : isBookableDate 0 (3 * dayMs) = true := by decide

example : isBookableDate 0 (4 * dayMs) = false := by decide

example : findHHMM "07:00" = some 7 := by decide

example : findHHMM "2026-02-20T07:00:00" = some 7 := by decide

example : findHHMM "garbage" = none := by decide

example : findHHMM "7:00" = none := by decide

example :
    memberAt
      (buildAvailabilityMap (fun _ => none)
        ⟨some [⟨"r1", some [⟨"07:00", "09:00", "available"⟩, ⟨"10:00", "11:00", "booked"⟩]⟩]⟩)
      8 "r1" := by
  decide

example :
    ¬ memberAt
      (buildAvailabilityMap (fun _ => none)
        ⟨some [⟨"r1", some [⟨"07:00", "09:00", "available"⟩, ⟨"10:00", "11:00", "booked"⟩]⟩]⟩)
      10 "r1" := by
  decide

end Booking
